import Mathlib

/-!
Shallow embedding of `go-querystring`'s decoder (`src/query/decode.go`) and of
the small helpers it uses, together with proofs about the decode algorithm.

The embedding follows the Go source line by line:
* `convertString` models `convertString` (decode.go:207-278),
* `absorbField` models one iteration of the field loop of `absorbValue`
  (decode.go:86-191), `absorbFields` models the whole loop,
* `decode` models `Decode` (decode.go:54-72).

Reflection values (`reflect.Value`) are modelled by the inductive `Value`
(the dynamic value of a field) together with an explicit `canSet` flag
(`reflect.Value.CanSet`, true exactly when the struct was reached through at
least one pointer indirection).  Machine integers are modelled as `Int`/`Nat`
with explicit range checks, exactly as `strconv` and `reflect.Value.OverflowInt`
perform them.  Divergence (a loop in the source that never exits) is modelled
by an `Option` result: `none` means the corresponding Go code never returns.
-/

set_option autoImplicit false

namespace GoQuery

/-- Signed integer kinds of `reflect` (`int` is 64-bit on the reference platform). -/
inductive IntKind where
  | i | i8 | i16 | i32 | i64
deriving DecidableEq, Repr

/-- Unsigned integer kinds of `reflect` (`uint` is 64-bit on the reference platform). -/
inductive UintKind where
  | u | u8 | u16 | u32 | u64
deriving DecidableEq, Repr

/-- Floating point kinds of `reflect`. -/
inductive FloatKind where
  | f32 | f64
deriving DecidableEq, Repr

/-- Complex kinds of `reflect` (no conversion rule in `convertString`). -/
inductive ComplexKind where
  | c64 | c128
deriving DecidableEq, Repr

/-- Bit width used by `reflect.Value.OverflowInt` for each signed kind. -/
def IntKind.width : IntKind → Nat
  | .i => 64
  | .i8 => 8
  | .i16 => 16
  | .i32 => 32
  | .i64 => 64

/-- Bit width used by `reflect.Value.OverflowUint` for each unsigned kind. -/
def UintKind.width : UintKind → Nat
  | .u => 64
  | .u8 => 8
  | .u16 => 16
  | .u32 => 32
  | .u64 => 64

/-- Rendering (`%v`) of a signed `reflect.Kind`. -/
def IntKind.render : IntKind → String
  | .i => "int"
  | .i8 => "int8"
  | .i16 => "int16"
  | .i32 => "int32"
  | .i64 => "int64"

/-- Rendering (`%v`) of an unsigned `reflect.Kind`. -/
def UintKind.render : UintKind → String
  | .u => "uint"
  | .u8 => "uint8"
  | .u16 => "uint16"
  | .u32 => "uint32"
  | .u64 => "uint64"

/-- Rendering (`%v`) of a floating point `reflect.Kind`. -/
def FloatKind.render : FloatKind → String
  | .f32 => "float32"
  | .f64 => "float64"

/-- Rendering (`%v`) of a complex `reflect.Kind`. -/
def ComplexKind.render : ComplexKind → String
  | .c64 => "complex64"
  | .c128 => "complex128"

/-- The dynamic value held in a struct field, as seen through `reflect.Value`.
Float values are carried as exact rationals (the claims proved below never
inspect rounding).  `vptr` carries the pointee when the pointer is non-nil;
slice, array, struct and map fields are never read beyond their kind by the
decoder, so they carry no payload. -/
inductive Value where
  | vint (k : IntKind) (n : Int)
  | vuint (k : UintKind) (n : Nat)
  | vfloat (k : FloatKind) (q : ℚ)
  | vbool (b : Bool)
  | vstring (s : String)
  | vptr (elem : Option Value)
  | vslice
  | varray
  | vstructV
  | vcomplex (k : ComplexKind)
  | vmap

/-- Rendering (`%v`) of `reflect.Value.Kind()` for each modelled value. -/
def Value.kindName : Value → String
  | .vint k _ => k.render
  | .vuint k _ => k.render
  | .vfloat k _ => k.render
  | .vbool _ => "bool"
  | .vstring _ => "string"
  | .vptr _ => "ptr"
  | .vslice => "slice"
  | .varray => "array"
  | .vstructV => "struct"
  | .vcomplex k => k.render
  | .vmap => "map"

/-- Test `sv.Kind() == reflect.Struct` (decode.go:99). -/
def Value.isStructKind : Value → Bool
  | .vstructV => true
  | _ => false

/-- Test `sv.Kind() == reflect.Slice` (decode.go:141). -/
def Value.isSliceKind : Value → Bool
  | .vslice => true
  | _ => false

/-- Test `sv.Kind() == reflect.Array` (decode.go:141). -/
def Value.isArrayKind : Value → Bool
  | .varray => true
  | _ => false

/-- Errors of the `strconv` parsing primitives (`strconv.NumError`):
a syntax error or a range error, tagged with the function name and the
offending literal. -/
inductive NumError where
  | syntaxErr (fn : String) (num : String)
  | rangeErr (fn : String) (num : String)
deriving DecidableEq, Repr

/-- Message text (`Error()`) of a `strconv.NumError`. -/
def NumError.render : NumError → String
  | .syntaxErr fn num => "strconv." ++ fn ++ ": parsing \"" ++ num ++ "\": invalid syntax"
  | .rangeErr fn num => "strconv." ++ fn ++ ": parsing \"" ++ num ++ "\": value out of range"

/-- The errors the decoder can return, one constructor per `fmt.Errorf` site of
decode.go plus the two propagated kinds (underlying `strconv` errors, and
errors returned by a field's own `DecodeValues` method, carried verbatim). -/
inductive DecodeError where
  | typeMismatch (kind : String)
  | nilTarget
  | incompatible (str : String) (kind : String)
  | unsupported (kind : String)
  | parse (e : NumError)
  | decoderErr (msg : String)
deriving DecidableEq, Repr

/-- Message text (`Error()`) of each decoder error, exactly as formatted in decode.go. -/
def DecodeError.render : DecodeError → String
  | .typeMismatch kind => "query:  Decode() expects struct input.  Got " ++ kind
  | .nilTarget => "query:  Attempt to Decode() into nil pointer"
  | .incompatible str kind =>
      "query:  Query arg value \"" ++ str ++ "\" incompatible with field value type " ++ kind
  | .unsupported kind => "query:  Unsupported field value type " ++ kind
  | .parse e => e.render
  | .decoderErr msg => msg

/-- String `s` contains `sub` as a substring. -/
def containsStr (s sub : String) : Prop := ∃ a b, s = a ++ (sub ++ b)

/-- Decimal value of one digit character. -/
def charDigit? (c : Char) : Option Nat :=
  if c.isDigit then some (c.toNat - 48) else none

/-- Accumulate base-10 digits; fails on the first non-digit. -/
def digitsValAux : List Char → Nat → Option Nat
  | [], acc => some acc
  | c :: cs, acc =>
      match charDigit? c with
      | some d => digitsValAux cs (acc * 10 + d)
      | none => none

/-- Value of a non-empty all-digit string; `none` if empty or any non-digit. -/
def digitsVal? : List Char → Option Nat
  | [] => none
  | c :: cs => digitsValAux (c :: cs) 0

/-- Model of `strconv.ParseUint(s, 10, 64)`: base-10 digits, no sign allowed,
range-checked against `2^64 - 1`. -/
def parseUint64 (s : String) : Except NumError Nat :=
  match digitsVal? s.data with
  | none => .error (.syntaxErr "ParseUint" s)
  | some n => if n ≤ 2 ^ 64 - 1 then .ok n else .error (.rangeErr "ParseUint" s)

/-- Model of `strconv.ParseInt(s, 10, 64)`: optional sign, base-10 digits,
range-checked against the `int64` range. -/
def parseInt64 (s : String) : Except NumError Int :=
  match s.data with
  | [] => .error (.syntaxErr "ParseInt" s)
  | c :: cs =>
      let signed : Bool × List Char :=
        if c = '-' then (true, cs) else if c = '+' then (false, cs) else (false, c :: cs)
      match digitsVal? signed.2 with
      | none => .error (.syntaxErr "ParseInt" s)
      | some n =>
          if signed.1 then
            if n ≤ 2 ^ 63 then .ok (-(n : Int)) else .error (.rangeErr "ParseInt" s)
          else
            if n ≤ 2 ^ 63 - 1 then .ok (n : Int) else .error (.rangeErr "ParseInt" s)

/-- Model of `strconv.ParseBool`: the exact literal set accepted by Go. -/
def parseBool (s : String) : Except NumError Bool :=
  if s = "1" ∨ s = "t" ∨ s = "T" ∨ s = "TRUE" ∨ s = "true" ∨ s = "True" then .ok true
  else if s = "0" ∨ s = "f" ∨ s = "F" ∨ s = "FALSE" ∨ s = "false" ∨ s = "False" then .ok false
  else .error (.syntaxErr "ParseBool" s)

/-- Split a character list at the first exponent marker `e`/`E`. -/
def splitExp : List Char → List Char × Option (List Char)
  | [] => ([], none)
  | c :: rest =>
      if c = 'e' ∨ c = 'E' then ([], some rest)
      else
        let r := splitExp rest
        (c :: r.1, r.2)

/-- Split a character list at the first decimal point. -/
def splitDot : List Char → List Char × Option (List Char)
  | [] => ([], none)
  | c :: rest =>
      if c = '.' then ([], some rest)
      else
        let r := splitDot rest
        (c :: r.1, r.2)

/-- All characters are base-10 digits. -/
def allDigits (cs : List Char) : Bool := cs.all Char.isDigit

/-- Base-10 value of a digit list (0 for the empty list). -/
def digitsNat (cs : List Char) : Nat := cs.foldl (fun a c => a * 10 + (c.toNat - 48)) 0

/-- Largest finite `float64`, as an exact rational. -/
def maxFloat64Q : ℚ := ((2 ^ 53 - 1 : ℕ) : ℚ) * 2 ^ 971

/-- Largest finite `float32`, as an exact rational
(`math.MaxFloat32`, used by `reflect.Value.OverflowFloat` on 32-bit fields). -/
def maxFloat32Q : ℚ := ((2 ^ 24 - 1 : ℕ) : ℚ) * 2 ^ 104

/-- Strip an optional sign, returning (negative?, rest). -/
def stripSign : List Char → Bool × List Char
  | [] => (false, [])
  | c :: cs =>
      if c = '-' then (true, cs) else if c = '+' then (false, c :: cs) else (false, c :: cs)

/-- Model of `strconv.ParseFloat(s, 64)` on its decimal-literal fragment
(`[+-]digits[.digits][e[+-]digits]`), producing the exact rational value of the
literal; a literal beyond the finite `float64` range is a range error, matching
Go's `ErrRange` on overflow.  (The `Inf`/`NaN`/hexadecimal spellings of the Go
grammar are not modelled; no claim depends on them, nor on rounding.) -/
def parseFloatQ (s : String) : Except NumError ℚ :=
  match s.data with
  | [] => .error (.syntaxErr "ParseFloat" s)
  | c₀ :: cs₀ =>
      let sgn := stripSign (c₀ :: cs₀)
      let me := splitExp sgn.2
      let ifr := splitDot me.1
      let intPart := ifr.1
      let fracPart := (ifr.2).getD []
      if allDigits intPart ∧ allDigits fracPart ∧ intPart ++ fracPart ≠ [] then
        let mant : ℚ := (digitsNat (intPart ++ fracPart) : ℚ)
        let fracLen : ℤ := (fracPart.length : ℤ)
        match me.2 with
        | none =>
            let q : ℚ := (if sgn.1 then -mant else mant) * (10 : ℚ) ^ (-fracLen)
            if maxFloat64Q < |q| then .error (.rangeErr "ParseFloat" s) else .ok q
        | some ecs =>
            let esgn := stripSign ecs
            match digitsVal? esgn.2 with
            | none => .error (.syntaxErr "ParseFloat" s)
            | some e =>
                let expv : ℤ := (if esgn.1 then -(e : ℤ) else (e : ℤ)) - fracLen
                let q : ℚ := (if sgn.1 then -mant else mant) * (10 : ℚ) ^ expv
                if maxFloat64Q < |q| then .error (.rangeErr "ParseFloat" s) else .ok q
      else .error (.syntaxErr "ParseFloat" s)

/-- Check of `reflect.Value.OverflowInt`: the parsed 64-bit value does not fit the
field's declared signed width. -/
def overflowInt (k : IntKind) (n : Int) : Bool :=
  n < -(2 ^ (k.width - 1) : Int) ∨ (2 ^ (k.width - 1) : Int) ≤ n

/-- Check of `reflect.Value.OverflowUint`: the parsed 64-bit value does not fit the
field's declared unsigned width. -/
def overflowUint (k : UintKind) (n : Nat) : Bool :=
  2 ^ k.width ≤ n

/-- Check of `reflect.Value.OverflowFloat`: a 32-bit field overflows beyond
`math.MaxFloat32`; a 64-bit field never overflows. -/
def overflowFloat (k : FloatKind) (q : ℚ) : Bool :=
  match k with
  | .f32 => maxFloat32Q < |q|
  | .f64 => false

/-- Split a character list on the comma delimiter (`strings.Split(s, ",")`):
always at least one segment; the empty input gives one empty segment. -/
def splitComma : List Char → List (List Char)
  | [] => [[]]
  | c :: cs =>
      if c = ',' then [] :: splitComma cs
      else
        match splitComma cs with
        | [] => [[c]]
        | g :: gs => (c :: g) :: gs

/-- Modelled from the spec: `parseTag` lives in the repository's encoder file,
which is not under `src/` (only its caller at decode.go:97 is).  Spec §4.1/§6:
the annotation is split on commas; the first segment is the lookup name
(possibly empty) and the remaining segments are the option flags.  `tagOptions`
is the list of those remaining segments, queried with `List.contains`. -/
def parseTag (tag : String) : String × List String :=
  match splitComma tag.data with
  | [] => ("", [])
  | n :: opts => (⟨n⟩, opts.map fun cs => (⟨cs⟩ : String))

/-- Type of `url.Values` (`map[string][]string`); modelled as an association list with
distinct keys, looked up by first match. -/
def UrlValues : Type := List (String × List String)

/-- Map indexing `toxicValues[name]`: `some vs` when the key is present
(`ok = true` in the comma-ok form), `none` when absent. -/
def lookupVals : UrlValues → String → Option (List String)
  | [], _ => none
  | (k, vs) :: rest, name => if k = name then some vs else lookupVals rest name

/-- One struct field as seen through reflection: declared name
(`StructField.Name`), raw `url` tag (`sf.Tag.Get("url")`, `""` when none),
whether it is unexported (`sf.PkgPath != ""`), whether it is anonymous
(embedded), its current value, and — when the field's type implements the
`Decoder` interface (decode.go:19-21) — its `DecodeValues` method, modelled as
a function from the string argument and the current field value to an error or
the updated field value. -/
structure Field where
  name : String
  tag : String
  unexported : Bool
  anonymous : Bool
  value : Value
  decodeValues : Option (String → Value → Except String Value)

/-- The resolved lookup name of a field (decode.go:97-106, before scope
qualification): the tag's first segment, defaulting to the declared field name
when that segment is empty. -/
def resolvedName (f : Field) : String :=
  if (parseTag f.tag).1 = "" then f.name else (parseTag f.tag).1

/-- Denotation of the pointer loop at decode.go:175-180:
`for sv.Kind() == reflect.Ptr { if sv.IsNil() { break } }`.
Its body (`sv = sv.Elem()`) is commented out in the source, so the loop exits
only when the value is a nil pointer (via `break`) or not a pointer at all
(loop guard false); on a non-nil pointer no iteration changes `sv`, hence the
loop never terminates, denoted `none`. -/
def ptrSkipLoop : Value → Option Value
  | .vptr none => some (.vptr none)
  | .vptr (some _) => none
  | v => some v

/-- The kind switch of `convertString` (decode.go:236-276), reached only after
the leading pointer loop and the `CanSet` check.  Returns the error or the
updated field value. -/
def convertStringKind (toxicStr : String) (v : Value) : Except DecodeError Value :=
  match v with
  | .vint k _ =>
      match parseInt64 toxicStr with
      | .error e => .error (.parse e)
      | .ok n =>
          if overflowInt k n then .error (.incompatible toxicStr k.render)
          else .ok (.vint k n)
  | .vuint k _ =>
      match parseUint64 toxicStr with
      | .error e => .error (.parse e)
      | .ok n =>
          if overflowUint k n then .error (.incompatible toxicStr k.render)
          else .ok (.vuint k n)
  | .vfloat k _ =>
      match parseFloatQ toxicStr with
      | .error e => .error (.parse e)
      | .ok q =>
          if overflowFloat k q then .error (.incompatible toxicStr k.render)
          else .ok (.vfloat k q)
  | .vbool _ =>
      match parseBool toxicStr with
      | .error e => .error (.parse e)
      | .ok b => .ok (.vbool b)
  | .vstring _ => .ok (.vstring toxicStr)
  | v => .error (.unsupported v.kindName)

/-- Model of `convertString` (decode.go:207-278).  The leading loop
`for v.Kind() == reflect.Ptr { if v.IsNil() { return ... } }` has its body
(`v = v.Elem()`) commented out: a nil pointer returns the nil-pointer error,
a non-nil pointer never leaves the loop (`none`).  A non-settable value is a
silent no-op (decode.go:215-217).  `opts` is accepted and unused, as in the
source.  The result carries the (possibly updated) field value. -/
def convertString (toxicStr : String) (v : Value) (canSet : Bool)
    (opts : List String) : Option (Except DecodeError Value) :=
  match v with
  | .vptr none => some (.error .nilTarget)
  | .vptr (some _) => none
  | v =>
      if canSet then some (convertStringKind toxicStr v)
      else some (.ok v)

/-- One iteration of the field loop of `absorbValue` (decode.go:86-191) on a
single field.  `canSet` is the settability of the struct's fields
(`reflect.Value.CanSet`, uniform over exported fields of one struct value).
Result: `none` models divergence; otherwise the (possibly updated) field and
the error that aborts the traversal, if any. -/
def absorbField (toxicValues : UrlValues) (canSet : Bool) (scope : String)
    (f : Field) : Option (Field × Option DecodeError) :=
  if f.unexported then some (f, none)
  else if f.tag = "-" then some (f, none)
  else
    let nm := (parseTag f.tag).1
    let opts := (parseTag f.tag).2
    if nm = "" ∧ f.anonymous = true ∧ f.value.isStructKind = true then some (f, none)
    else
      let name := if nm = "" then f.name else nm
      if opts.contains "seen" then
        match f.value, canSet with
        | .vbool _, true =>
            if (lookupVals toxicValues name).isSome then
              some ({ f with value := .vbool true }, none)
            else some (f, none)
        | _, _ => some (f, none)
      else
        let name := if scope ≠ "" then scope ++ "[" ++ name ++ "]" else name
        match f.decodeValues with
        | some dec =>
            match lookupVals toxicValues name with
            | some (x :: _) =>
                match dec x f.value with
                | .error m => some (f, some (.decoderErr m))
                | .ok v => some ({ f with value := v }, none)
            | _ => some (f, none)
        | none =>
            if f.value.isSliceKind = true ∨ f.value.isArrayKind = true then some (f, none)
            else
              match lookupVals toxicValues name with
              | none => some (f, none)
              | some [] => some (f, none)
              | some (x :: _) =>
                  match ptrSkipLoop f.value with
                  | none => none
                  | some sv =>
                      match convertString x sv canSet opts with
                      | none => none
                      | some (.error e) => some (f, some e)
                      | some (.ok v) => some ({ f with value := v }, none)

/-- The whole field loop of `absorbValue`: fields in declaration order, first
error aborts the traversal and is returned, leaving later fields untouched
(decode.go:86-191, return at 189 and fall-through return nil at 199). -/
def absorbFields (toxicValues : UrlValues) (canSet : Bool) (scope : String) :
    List Field → Option (List Field × Option DecodeError)
  | [] => some ([], none)
  | f :: fs =>
      match absorbField toxicValues canSet scope f with
      | none => none
      | some (f₁, some e) => some (f₁ :: fs, some e)
      | some (f₁, none) =>
          match absorbFields toxicValues canSet scope fs with
          | none => none
          | some (fs₁, r) => some (f₁ :: fs₁, r)

/-- The argument of `Decode` after `reflect.ValueOf`: a chain of pointers
ending in a struct or in some other (non-struct, non-pointer) value, of which
the decoder only ever reads the kind name.  A pointer value is either nil
(`tptrNil`) or points at a value (`tptrTo`). -/
inductive Target where
  | tptrNil
  | tptrTo (t : Target)
  | tstruct (fields : List Field)
  | tother (kind : String)

/-- The body of `Decode` after the nil-interface check (decode.go:59-71): the
dereference loop (which, unlike the one in `absorbValue`, does run
`val = val.Elem()`), the nil-pointer no-op success, the struct-kind check, and
the delegation to `absorbValue` with empty scope.  `addressable` records
whether at least one pointer was dereferenced, which is exactly when the
struct's fields satisfy `CanSet`. -/
def decodeVal (toxicValues : UrlValues) (addressable : Bool) :
    Target → Option (Target × Option DecodeError)
  | .tptrNil => some (.tptrNil, none)
  | .tptrTo t =>
      match decodeVal toxicValues true t with
      | none => none
      | some (t₁, r) => some (.tptrTo t₁, r)
  | .tstruct fields =>
      match absorbFields toxicValues addressable "" fields with
      | none => none
      | some (fs, r) => some (.tstruct fs, r)
  | .tother k => some (.tother k, some (.typeMismatch k))

/-- Model of `Decode` (decode.go:54-72).  The argument `v` is `none` for a nil
interface value (immediate success).  The result pairs the post-state of the
target with the returned error (`none` = the Go function returned `nil`);
an overall `none` models a call that never returns. -/
def decode (toxicValues : UrlValues) (v : Option Target) :
    Option (Option Target × Option DecodeError) :=
  match v with
  | none => some (none, none)
  | some t =>
      match decodeVal toxicValues false t with
      | none => none
      | some (t₁, r) => some (some t₁, r)

/-- The target is a nil reference after following pointer indirection
(the case in which `Decode` succeeds as a no-op, decode.go:60-65). -/
def resolvesToNil : Target → Bool
  | .tptrNil => true
  | .tptrTo t => resolvesToNil t
  | _ => false

/-- The value at the end of the pointer chain, when the chain does not end in
a nil pointer. -/
def derefTarget : Target → Option Target
  | .tptrNil => none
  | .tptrTo t => derefTarget t
  | t => some t

/-- Two input mappings agree on key presence and on the first value of every
key (both absent, or both present with equal first element — including both
present with empty value sequences). -/
def sameFirst (v₁ v₂ : UrlValues) : Prop :=
  ∀ k, (lookupVals v₁ k).map List.head? = (lookupVals v₂ k).map List.head?

/-- Field kinds that reach the `default` branch of `convertString`'s kind
switch (decode.go:274-275) when forwarded by the field walker: every modelled
kind with no conversion rule except slices and arrays (which `absorbValue`
skips at decode.go:141-158 before conversion) and pointers (intercepted by the
loop at decode.go:208-213). -/
def noConvRule : Value → Bool
  | .vstructV => true
  | .vcomplex _ => true
  | .vmap => true
  | _ => false

/-! ### Helper lemmas -/

theorem render_incompatible_contains (s k : String) :
    containsStr ((DecodeError.incompatible s k).render) "incompatible" := by
  refine ⟨"query:  Query arg value \"" ++ s ++ "\" ", " with field value type " ++ k,
    String.ext ?_⟩
  simp [DecodeError.render, String.data_append]

theorem render_unsupported_contains (k : String) :
    containsStr ((DecodeError.unsupported k).render) "Unsupported" := by
  refine ⟨"query:  ", " field value type " ++ k, String.ext ?_⟩
  simp [DecodeError.render, String.data_append]

theorem render_unsupported_contains_kind (k : String) :
    containsStr ((DecodeError.unsupported k).render) k :=
  ⟨"query:  Unsupported field value type ", "", by
    simp [DecodeError.render, containsStr]⟩

/-! ### Claims -/

/-- C2: the claim says `Decode` terminates on every input, including records
with non-nil pointer-typed fields.  The code does not: the loop at
decode.go:175-180 (`for sv.Kind() == reflect.Ptr { if sv.IsNil() { break } }`)
has its only state change (`sv = sv.Elem()`) commented out, so for a non-nil
pointer field whose resolved name has a value in the input mapping the loop
never exits.  This theorem evaluates the model at such an input: the result is
`none`, the model's denotation of a call that never returns. -/
theorem c2_nonNilPointerDiverges :
    decode [("P", ["x"])]
      (some (.tptrTo (.tstruct [⟨"P", "", false, false, .vptr (some (.vstring "hi")), none⟩]))) =
      none := rfl

/-- C1 counterexample: the claim says that for a nil pointer-typed field whose
resolved name has a non-empty value sequence, `Decode` leaves the field
unchanged and returns success.  The field is indeed left unchanged, but the
call is not a success: `convertString` returns the nil-pointer error
(decode.go:209-211) for exactly this input. -/
theorem c1_counterexample :
    decode [("P", ["1"])]
        (some (.tptrTo (.tstruct [⟨"P", "", false, false, .vptr none, none⟩]))) =
      some (some (.tptrTo (.tstruct [⟨"P", "", false, false, .vptr none, none⟩])),
        some .nilTarget) ∧
    decode [("P", ["1"])]
        (some (.tptrTo (.tstruct [⟨"P", "", false, false, .vptr none, none⟩]))) ≠
      some (some (.tptrTo (.tstruct [⟨"P", "", false, false, .vptr none, none⟩])), none) :=
  ⟨rfl, by intro h; rw [show decode [("P", ["1"])]
        (some (.tptrTo (.tstruct [⟨"P", "", false, false, .vptr none, none⟩]))) =
      some (some (.tptrTo (.tstruct [⟨"P", "", false, false, .vptr none, none⟩])),
        some .nilTarget) from rfl] at h; simp at h⟩

/-- C1 amended: for a field holding a nil pointer (no `seen` option, no
`Decoder` implementation) whose resolved name has a non-empty value sequence,
the walker leaves the field unchanged but the decode aborts with the
nil-pointer error rather than succeeding. -/
theorem c1_nilPointerLeavesFieldButErrors (toxicValues : UrlValues) (canSet : Bool)
    (f : Field) (x : String) (rest : List String)
    (hval : f.value = .vptr none) (hexp : f.unexported = false) (htag : f.tag ≠ "-")
    (hseen : (parseTag f.tag).2.contains "seen" = false) (hdec : f.decodeValues = none)
    (hlook : lookupVals toxicValues (resolvedName f) = some (x :: rest)) :
    absorbField toxicValues canSet "" f = some (f, some .nilTarget) := by
  simp only [resolvedName] at hlook
  have hseen' : "seen" ∉ (parseTag f.tag).2 := by simpa using hseen
  simp [absorbField, hexp, htag, hval, hseen', hdec, Value.isStructKind, Value.isSliceKind,
    Value.isArrayKind, hlook, ptrSkipLoop, convertString]

/-- Witness for the C1 amended theorem at a concrete input. -/
theorem c1_nilPointerLeavesFieldButErrors_witness :
    absorbField [("P", ["1"])] true "" ⟨"P", "", false, false, .vptr none, none⟩ =
      some (⟨"P", "", false, false, .vptr none, none⟩, some .nilTarget) :=
  c1_nilPointerLeavesFieldButErrors [("P", ["1"])] true
    ⟨"P", "", false, false, .vptr none, none⟩ "1" [] rfl rfl (by decide) rfl rfl rfl

/-- C3 counterexample: the claim says the `DecodeValues` method is invoked with
the resolved lookup name as its string argument.  At decode.go:130 the code
passes `toxicSlice[0]` — the first value of the key's sequence — instead.
Here the method records its string argument into the field: after decoding,
the field holds the first value `"v"`, not the resolved name `"K"`. -/
theorem c3_counterexample :
    absorbField [("K", ["v"])] true ""
        ⟨"K", "", false, false, .vstring "", some fun s _ => .ok (.vstring s)⟩ =
      some (⟨"K", "", false, false, .vstring "v", some fun s _ => .ok (.vstring s)⟩, none) ∧
    ("v" : String) ≠ "K" := ⟨rfl, by decide⟩

/-- C3 amended: for a field whose type implements `Decoder` (not an anonymous
embedded struct with empty resolved name, no `seen` option): when the input
mapping has a non-empty value sequence for the resolved name, the walker calls
`DecodeValues` with the FIRST VALUE of that sequence (not the name) and the
field itself, propagates its error, updates the field with its result, and
performs no primitive conversion; when the name is absent or its sequence is
empty, the field is skipped. -/
theorem c3_decoderGetsFirstValue (toxicValues : UrlValues) (canSet : Bool) (f : Field)
    (dec : String → Value → Except String Value)
    (hdec : f.decodeValues = some dec) (hexp : f.unexported = false) (htag : f.tag ≠ "-")
    (hseen : (parseTag f.tag).2.contains "seen" = false)
    (hemb : ¬((parseTag f.tag).1 = "" ∧ f.anonymous = true ∧ f.value.isStructKind = true)) :
    absorbField toxicValues canSet "" f =
      match lookupVals toxicValues (resolvedName f) with
      | some (x :: _) =>
          match dec x f.value with
          | .error m => some (f, some (.decoderErr m))
          | .ok v => some ({ f with value := v }, none)
      | _ => some (f, none) := by
  have hseen' : "seen" ∉ (parseTag f.tag).2 := by simpa using hseen
  simp [absorbField, resolvedName, hexp, htag, hdec, hemb, hseen']

/-- Witness for the C3 amended theorem at a concrete input: the method rejects
its input and the error is propagated. -/
theorem c3_decoderGetsFirstValue_witness :
    absorbField [("K", ["v"])] true ""
        ⟨"K", "", false, false, .vstring "", some fun _ _ => .error "boom"⟩ =
      some (⟨"K", "", false, false, .vstring "", some fun _ _ => .error "boom"⟩,
        some (.decoderErr "boom")) :=
  (c3_decoderGetsFirstValue [("K", ["v"])] true
      ⟨"K", "", false, false, .vstring "", some fun _ _ => .error "boom"⟩
      (fun _ _ => .error "boom") rfl rfl (by decide) rfl (by simp [parseTag, splitComma])).trans
    rfl

/-- C4: for a field carrying the `seen` option (decode.go:112-120), no error is
ever reported, and: a settable boolean field becomes true iff its resolved
name is present as a key of the input mapping or it was already true
(`b || present`; presence is key membership, independent of the value
sequence's content, and no string parsing happens); a non-boolean field or a
non-settable field is left unchanged. -/
theorem c4_seenOption (toxicValues : UrlValues) (canSet : Bool) (f : Field)
    (hexp : f.unexported = false) (htag : f.tag ≠ "-")
    (hseen : (parseTag f.tag).2.contains "seen" = true) :
    (∀ b, f.value = .vbool b → canSet = true →
      absorbField toxicValues canSet "" f =
        some ({ f with value := .vbool (b || (lookupVals toxicValues (resolvedName f)).isSome) },
          none)) ∧
    ((∀ b, f.value ≠ .vbool b) → absorbField toxicValues canSet "" f = some (f, none)) ∧
    (canSet = false → absorbField toxicValues canSet "" f = some (f, none)) := by
  have hseen' : "seen" ∈ (parseTag f.tag).2 := by simpa using hseen
  obtain ⟨nme, tg, ue, an, v, dv⟩ := f
  refine ⟨?_, ?_, ?_⟩
  · rintro b rfl rfl
    by_cases hp : (lookupVals toxicValues
        (resolvedName ⟨nme, tg, ue, an, .vbool b, dv⟩)).isSome <;>
      simp_all [absorbField, resolvedName, Value.isStructKind]
  · intro hb
    cases v <;> simp_all [absorbField, resolvedName, Value.isStructKind]
  · rintro rfl
    cases v <;> simp_all [absorbField, resolvedName, Value.isStructKind]

/-- Witness for C4 at the repository's own `seen` scenario: tag `scale,seen`,
key `scale` present (with an unparseable-as-bool value), field flips to true
with no error; and at a non-boolean `seen` field, which is left alone. -/
theorem c4_seenOption_witness :
    absorbField [("scale", ["22.7"])] true "" ⟨"E", "scale,seen", false, false, .vbool false, none⟩ =
      some (⟨"E", "scale,seen", false, false, .vbool true, none⟩, none) ∧
    absorbField [("scale", ["22.7"])] true ""
        ⟨"D", "scale,seen", false, false, .vstring "", none⟩ =
      some (⟨"D", "scale,seen", false, false, .vstring "", none⟩, none) := by
  constructor
  · have h := (c4_seenOption [("scale", ["22.7"])] true
      ⟨"E", "scale,seen", false, false, .vbool false, none⟩ rfl (by decide) rfl).1
      false rfl rfl
    exact h.trans rfl
  · exact (c4_seenOption [("scale", ["22.7"])] true
      ⟨"D", "scale,seen", false, false, .vstring "", none⟩ rfl (by decide) rfl).2.1
      (fun b h => Value.noConfusion h)

/-- C5: for a settable signed or unsigned integer field whose resolved name
has a value that parses at 64-bit precision (decode.go:236-253): if the parsed
value overflows the field's declared width, the walker reports the
`incompatible` error (whose text contains `"incompatible"`) and the field is
not assigned; otherwise — in particular for values exactly at the width's
boundary, as the last two conjuncts record — the parsed value is assigned and
no error is reported. -/
theorem c5_integerOverflowPolicy :
    (∀ (toxicValues : UrlValues) (f : Field) (k : IntKind) (n₀ : Int) (s : String)
        (rest : List String) (m : Int),
      f.unexported = false → f.tag ≠ "-" → (parseTag f.tag).2.contains "seen" = false →
      f.decodeValues = none → f.value = .vint k n₀ →
      lookupVals toxicValues (resolvedName f) = some (s :: rest) →
      parseInt64 s = .ok m →
      (overflowInt k m = true →
        absorbField toxicValues true "" f = some (f, some (.incompatible s k.render)) ∧
        containsStr ((DecodeError.incompatible s k.render).render) "incompatible") ∧
      (overflowInt k m = false →
        absorbField toxicValues true "" f = some ({ f with value := .vint k m }, none))) ∧
    (∀ (toxicValues : UrlValues) (f : Field) (k : UintKind) (n₀ : Nat) (s : String)
        (rest : List String) (m : Nat),
      f.unexported = false → f.tag ≠ "-" → (parseTag f.tag).2.contains "seen" = false →
      f.decodeValues = none → f.value = .vuint k n₀ →
      lookupVals toxicValues (resolvedName f) = some (s :: rest) →
      parseUint64 s = .ok m →
      (overflowUint k m = true →
        absorbField toxicValues true "" f = some (f, some (.incompatible s k.render)) ∧
        containsStr ((DecodeError.incompatible s k.render).render) "incompatible") ∧
      (overflowUint k m = false →
        absorbField toxicValues true "" f = some ({ f with value := .vuint k m }, none))) ∧
    (∀ k : IntKind, overflowInt k (2 ^ (k.width - 1) - 1) = false ∧
      overflowInt k (-(2 ^ (k.width - 1))) = false) ∧
    (∀ k : UintKind, overflowUint k (2 ^ k.width - 1) = false) := by
  refine ⟨?_, ?_, ?_, ?_⟩
  · intro tv f k n₀ s rest m hexp htag hseen hdec hval hlook hparse
    have hseen' : "seen" ∉ (parseTag f.tag).2 := by simpa using hseen
    simp only [resolvedName] at hlook
    constructor
    · intro hov
      refine ⟨?_, render_incompatible_contains _ _⟩
      simp [absorbField, hexp, htag, hval, hseen', hdec, Value.isStructKind, Value.isSliceKind,
        Value.isArrayKind, hlook, ptrSkipLoop, convertString, convertStringKind, hparse, hov]
    · intro hov
      simp [absorbField, hexp, htag, hval, hseen', hdec, Value.isStructKind, Value.isSliceKind,
        Value.isArrayKind, hlook, ptrSkipLoop, convertString, convertStringKind, hparse, hov]
  · intro tv f k n₀ s rest m hexp htag hseen hdec hval hlook hparse
    have hseen' : "seen" ∉ (parseTag f.tag).2 := by simpa using hseen
    simp only [resolvedName] at hlook
    constructor
    · intro hov
      refine ⟨?_, render_incompatible_contains _ _⟩
      simp [absorbField, hexp, htag, hval, hseen', hdec, Value.isStructKind, Value.isSliceKind,
        Value.isArrayKind, hlook, ptrSkipLoop, convertString, convertStringKind, hparse, hov]
    · intro hov
      simp [absorbField, hexp, htag, hval, hseen', hdec, Value.isStructKind, Value.isSliceKind,
        Value.isArrayKind, hlook, ptrSkipLoop, convertString, convertStringKind, hparse, hov]
  · intro k
    cases k <;> exact ⟨by decide, by decide⟩
  · intro k
    cases k <;> decide

/-- Witness for C5 at the repository's own overflow scenarios (`int8` with
`"128"`, `uint16` with `"65536"`) and at the corresponding boundary successes
(`127`, `65535`). -/
theorem c5_integerOverflowPolicy_witness :
    absorbField [("B", ["128"])] true "" ⟨"B", "", false, false, .vint .i8 0, none⟩ =
      some (⟨"B", "", false, false, .vint .i8 0, none⟩, some (.incompatible "128" "int8")) ∧
    absorbField [("B", ["127"])] true "" ⟨"B", "", false, false, .vint .i8 0, none⟩ =
      some (⟨"B", "", false, false, .vint .i8 127, none⟩, none) ∧
    absorbField [("B", ["65536"])] true "" ⟨"B", "", false, false, .vuint .u16 0, none⟩ =
      some (⟨"B", "", false, false, .vuint .u16 0, none⟩, some (.incompatible "65536" "uint16")) ∧
    absorbField [("B", ["65535"])] true "" ⟨"B", "", false, false, .vuint .u16 0, none⟩ =
      some (⟨"B", "", false, false, .vuint .u16 65535, none⟩, none) :=
  ⟨((c5_integerOverflowPolicy.1 [("B", ["128"])] ⟨"B", "", false, false, .vint .i8 0, none⟩
      .i8 0 "128" [] 128 rfl (by decide) rfl rfl rfl rfl rfl).1 (by decide)).1,
    (c5_integerOverflowPolicy.1 [("B", ["127"])] ⟨"B", "", false, false, .vint .i8 0, none⟩
      .i8 0 "127" [] 127 rfl (by decide) rfl rfl rfl rfl rfl).2 (by decide),
    ((c5_integerOverflowPolicy.2.1 [("B", ["65536"])] ⟨"B", "", false, false, .vuint .u16 0, none⟩
      .u16 0 "65536" [] 65536 rfl (by decide) rfl rfl rfl rfl rfl).1 (by decide)).1,
    (c5_integerOverflowPolicy.2.1 [("B", ["65535"])] ⟨"B", "", false, false, .vuint .u16 0, none⟩
      .u16 0 "65535" [] 65535 rfl (by decide) rfl rfl rfl rfl rfl).2 (by decide)⟩

/-- C6: for a settable field whose kind has no conversion rule and reaches the
converter (struct, complex, map — slices/arrays are silently skipped by the
walker and pointers are intercepted earlier), a supplied value makes the
walker fail with the `Unsupported` error (decode.go:274-275), whose text
contains `"Unsupported"` and the field's kind name — whatever the supplied
string is. -/
theorem c6_unsupportedKind (toxicValues : UrlValues) (f : Field) (s : String)
    (rest : List String)
    (hexp : f.unexported = false) (htag : f.tag ≠ "-")
    (hseen : (parseTag f.tag).2.contains "seen" = false) (hdec : f.decodeValues = none)
    (hnr : noConvRule f.value = true)
    (hemb : ¬((parseTag f.tag).1 = "" ∧ f.anonymous = true ∧ f.value.isStructKind = true))
    (hlook : lookupVals toxicValues (resolvedName f) = some (s :: rest)) :
    absorbField toxicValues true "" f = some (f, some (.unsupported f.value.kindName)) ∧
    containsStr ((DecodeError.unsupported f.value.kindName).render) "Unsupported" ∧
    containsStr ((DecodeError.unsupported f.value.kindName).render) f.value.kindName := by
  refine ⟨?_, render_unsupported_contains _, render_unsupported_contains_kind _⟩
  have hseen' : "seen" ∉ (parseTag f.tag).2 := by simpa using hseen
  simp only [resolvedName] at hlook
  cases hv : f.value <;> rw [hv] at hnr hemb <;> simp [noConvRule] at hnr <;>
    simp [absorbField, hexp, htag, hv, hseen', hdec, hemb, Value.isStructKind,
      Value.isSliceKind, Value.isArrayKind, hlook, ptrSkipLoop, convertString,
      convertStringKind, Value.kindName]
  intro h1
  by_contra hb
  exact hemb ⟨h1, by simpa using hb, rfl⟩

/-- Witness for C6 at the repository's own scenario: a `complex128` field with
a well-formed numeric string still fails with the `Unsupported` error. -/
theorem c6_unsupportedKind_witness :
    absorbField [("B", ["65536.282"])] true "" ⟨"B", "", false, false, .vcomplex .c128, none⟩ =
      some (⟨"B", "", false, false, .vcomplex .c128, none⟩, some (.unsupported "complex128")) :=
  (c6_unsupportedKind [("B", ["65536.282"])] ⟨"B", "", false, false, .vcomplex .c128, none⟩
    "65536.282" [] rfl (by decide) rfl rfl rfl (by simp [Value.isStructKind]) rfl).1

theorem convertStringKind_ne_typeMismatch (x : String) (v : Value) (kk : String)
    (h : convertStringKind x v = .error (.typeMismatch kk)) : False := by
  cases v <;> simp only [convertStringKind] at h <;>
    (try split at h) <;> (try split at h) <;> simp_all

theorem convertString_ne_typeMismatch (x : String) (v : Value) (c : Bool) (o : List String)
    (kk : String) (h : convertString x v c o = some (.error (.typeMismatch kk))) : False := by
  cases v
  case vptr elem => cases elem <;> simp [convertString] at h
  all_goals
    simp only [convertString] at h
    cases c
    · simp at h
    · simp at h
      exact convertStringKind_ne_typeMismatch x _ kk h

theorem absorbField_shape (tv : UrlValues) (c : Bool) (s : String) (f : Field) :
    (absorbField tv c s f = none) ∨
    (∃ f₁, absorbField tv c s f = some (f₁, none)) ∨
    (∃ m, absorbField tv c s f = some (f, some (.decoderErr m))) ∨
    (∃ x sv e, convertString x sv c (parseTag f.tag).2 = some (.error e) ∧
      absorbField tv c s f = some (f, some e)) := by
  simp only [absorbField]
  repeat' split
  all_goals first
    | exact Or.inl rfl
    | exact Or.inr (Or.inl ⟨_, rfl⟩)
    | exact Or.inr (Or.inr (Or.inl ⟨_, rfl⟩))
    | exact Or.inr (Or.inr (Or.inr ⟨_, _, _, by assumption, rfl⟩))

theorem absorbField_ne_typeMismatch (tv : UrlValues) (c : Bool) (s : String) (f f₁ : Field)
    (kk : String) (h : absorbField tv c s f = some (f₁, some (.typeMismatch kk))) : False := by
  rcases absorbField_shape tv c s f with h0 | ⟨f₂, h0⟩ | ⟨m, h0⟩ | ⟨x, sv, e, hcs, h0⟩ <;>
    rw [h0] at h <;> simp at h
  exact convertString_ne_typeMismatch x sv c (parseTag f.tag).2 kk (by rw [hcs, h.2])

theorem absorbFields_ne_typeMismatch (tv : UrlValues) (c : Bool) (s : String)
    (fs fs₁ : List Field) (kk : String)
    (h : absorbFields tv c s fs = some (fs₁, some (.typeMismatch kk))) : False := by
  induction fs generalizing fs₁ with
  | nil => simp [absorbFields] at h
  | cons f rest ih =>
      rw [absorbFields] at h
      cases hf : absorbField tv c s f with
      | none => rw [hf] at h; exact Option.noConfusion h
      | some p =>
          obtain ⟨f₁, r⟩ := p
          rw [hf] at h
          cases r with
          | some e =>
              simp at h
              exact absorbField_ne_typeMismatch tv c s f f₁ kk (by rw [hf, h.2])
          | none =>
              simp at h
              cases hrest : absorbFields tv c s rest with
              | none => rw [hrest] at h; exact Option.noConfusion h
              | some q =>
                  obtain ⟨fs₂, r₂⟩ := q
                  rw [hrest] at h
                  simp at h
                  exact ih fs₂ (by rw [hrest, h.2])

theorem decodeVal_resolvesToNil (tv : UrlValues) (a : Bool) (t : Target)
    (h : resolvesToNil t = true) : decodeVal tv a t = some (t, none) := by
  induction t generalizing a with
  | tptrNil => rfl
  | tptrTo t ih => simp [decodeVal, ih true (by simpa [resolvesToNil] using h)]
  | tstruct fs => simp [resolvesToNil] at h
  | tother k => simp [resolvesToNil] at h

theorem decodeVal_tother (tv : UrlValues) (a : Bool) (t : Target) (k : String)
    (h : derefTarget t = some (.tother k)) :
    decodeVal tv a t = some (t, some (.typeMismatch k)) := by
  induction t generalizing a with
  | tptrNil => simp [derefTarget] at h
  | tptrTo t ih => simp [decodeVal, ih true (by simpa [derefTarget] using h)]
  | tstruct fs => simp [derefTarget] at h
  | tother k₁ =>
      simp [derefTarget] at h
      cases h
      rfl

theorem decodeVal_typeMismatch_inv (tv : UrlValues) (a : Bool) (t : Target)
    (r : Target) (k : String)
    (h : decodeVal tv a t = some (r, some (.typeMismatch k))) :
    derefTarget t = some (.tother k) := by
  induction t generalizing a r with
  | tptrNil => simp [decodeVal] at h
  | tptrTo t ih =>
      rw [decodeVal] at h
      cases hd : decodeVal tv true t with
      | none => rw [hd] at h; exact Option.noConfusion h
      | some p =>
          obtain ⟨t₁, r₁⟩ := p
          rw [hd] at h
          simp at h
          rw [derefTarget]
          exact ih true t₁ (by rw [hd, h.2])
  | tstruct fs =>
      rw [decodeVal] at h
      cases hd : absorbFields tv a "" fs with
      | none => rw [hd] at h; exact Option.noConfusion h
      | some p =>
          obtain ⟨fs₁, r₁⟩ := p
          rw [hd] at h
          simp at h
          exact absurd (by rw [hd, h.2] :
            absorbFields tv a "" fs = some (fs₁, some (.typeMismatch k)))
            (fun hh => absorbFields_ne_typeMismatch tv a "" fs fs₁ k hh)
  | tother k₁ =>
      simp [decodeVal] at h
      simp [derefTarget, h.2]

/-- C7: `Decode` on a nil interface value, or on a target whose pointer chain
resolves to nil, is a no-op success (decode.go:55-63); and it returns the
`TypeMismatch` error naming the unexpected kind exactly when the (non-nil)
dereferenced target is not a struct (decode.go:67-69), leaving the target
untouched in that case. -/
theorem c7_targetHandling (toxicValues : UrlValues) :
    decode toxicValues none = some (none, none) ∧
    (∀ t, resolvesToNil t = true → decode toxicValues (some t) = some (some t, none)) ∧
    (∀ t k, derefTarget t = some (.tother k) →
      decode toxicValues (some t) = some (some t, some (.typeMismatch k))) ∧
    (∀ t r k, decode toxicValues (some t) = some (r, some (.typeMismatch k)) →
      derefTarget t = some (.tother k)) := by
  refine ⟨rfl, ?_, ?_, ?_⟩
  · intro t h
    simp [decode, decodeVal_resolvesToNil toxicValues false t h]
  · intro t k h
    simp [decode, decodeVal_tother toxicValues false t k h]
  · intro t r k h
    rw [decode] at h
    cases hd : decodeVal toxicValues false t with
    | none => rw [hd] at h; exact Option.noConfusion h
    | some p =>
        obtain ⟨t₁, r₁⟩ := p
        rw [hd] at h
        simp at h
        exact decodeVal_typeMismatch_inv toxicValues false t t₁ k (by rw [hd, h.2])

/-- Witness for C7 at concrete inputs: a pointer to a nil pointer succeeds as
a no-op; a pointer to an `int` target fails with `TypeMismatch` naming `int`;
and the inverse direction applied to a bare non-struct target. -/
theorem c7_targetHandling_witness :
    decode [] (some (.tptrTo .tptrNil)) = some (some (.tptrTo .tptrNil), none) ∧
    decode [] (some (.tptrTo (.tother "int"))) =
      some (some (.tptrTo (.tother "int")), some (.typeMismatch "int")) ∧
    derefTarget (.tother "bool") = some (.tother "bool") :=
  ⟨(c7_targetHandling []).2.1 (.tptrTo .tptrNil) rfl,
   (c7_targetHandling []).2.2.1 (.tptrTo (.tother "int")) "int" rfl,
   (c7_targetHandling []).2.2.2 (.tother "bool") (some (.tother "bool")) "bool" rfl⟩

/-- C8 counterexample: the claim says every field whose resolved name is
absent, or present with an empty value sequence, is left at its pre-call
value.  A `seen` field refutes the empty-sequence half: presence is tested
with key membership only (decode.go:116), so a key present with an empty
sequence still flips the field to true. -/
theorem c8_counterexample :
    decode [("x", [])] (some (.tptrTo (.tstruct [⟨"E", "x,seen", false, false, .vbool false, none⟩]))) =
      some (some (.tptrTo (.tstruct [⟨"E", "x,seen", false, false, .vbool true, none⟩])), none) ∧
    Value.vbool true ≠ Value.vbool false := ⟨rfl, by simp⟩

/-- C8 amended: a field whose resolved name is absent from the input mapping
is always left at its pre-call value with no error; a field whose resolved
name maps to an empty value sequence is likewise left unchanged with no error
provided it does not carry the `seen` option (a `seen` field keys on bare
presence and is set true even by an empty sequence). -/
theorem c8_absentOrEmptyLeavesField (toxicValues : UrlValues) (canSet : Bool) (f : Field)
    (h : lookupVals toxicValues (resolvedName f) = none ∨
      (lookupVals toxicValues (resolvedName f) = some [] ∧
        (parseTag f.tag).2.contains "seen" = false)) :
    absorbField toxicValues canSet "" f = some (f, none) := by
  obtain ⟨nm, tg, ue, an, v, dv⟩ := f
  simp only [resolvedName] at h
  cases ue
  case true => simp [absorbField]
  case false =>
  by_cases ht : tg = "-"
  · simp [absorbField, ht]
  by_cases hemb : (parseTag tg).1 = "" ∧ an = true ∧ v.isStructKind = true
  · simp [absorbField, ht, hemb]
  by_cases hseen : "seen" ∈ (parseTag tg).2
  · have hnone : lookupVals toxicValues
        (if (parseTag tg).1 = "" then nm else (parseTag tg).1) = none := by
      rcases h with h | ⟨h1, h2⟩
      · exact h
      · exact absurd hseen (by simpa using h2)
    cases v <;> cases canSet <;> simp [absorbField, ht, hemb, hseen, hnone]
  · have hlk : lookupVals toxicValues
        (if (parseTag tg).1 = "" then nm else (parseTag tg).1) = none ∨
        lookupVals toxicValues
          (if (parseTag tg).1 = "" then nm else (parseTag tg).1) = some [] := by
      rcases h with h | ⟨h1, h2⟩
      · exact Or.inl h
      · exact Or.inr h1
    cases dv <;> rcases hlk with hlk | hlk <;>
      by_cases hslice : v.isSliceKind = true ∨ v.isArrayKind = true <;>
      simp [absorbField, ht, hemb, hseen, hlk, hslice]

/-- Witness for the C8 amended theorem: a field whose name is not a key of the
mapping keeps its pre-call value and reports no error. -/
theorem c8_absentOrEmptyLeavesField_witness :
    absorbField [("Z", ["1"])] true "" ⟨"A", "", false, false, .vstring "x", none⟩ =
      some (⟨"A", "", false, false, .vstring "x", none⟩, none) :=
  c8_absentOrEmptyLeavesField [("Z", ["1"])] true ⟨"A", "", false, false, .vstring "x", none⟩
    (Or.inl rfl)

theorem lookupRel (v₁ v₂ : UrlValues) (h : sameFirst v₁ v₂) (n : String) :
    (lookupVals v₁ n = none ∧ lookupVals v₂ n = none) ∨
    (∃ t₁ t₂, lookupVals v₁ n = some t₁ ∧ lookupVals v₂ n = some t₂ ∧
      (t₁ = [] ∧ t₂ = [] ∨ ∃ x r₁ r₂, t₁ = x :: r₁ ∧ t₂ = x :: r₂)) := by
  have hn := h n
  cases h₁ : lookupVals v₁ n with
  | none =>
      cases h₂ : lookupVals v₂ n with
      | none => exact Or.inl ⟨rfl, rfl⟩
      | some t₂ => rw [h₁, h₂] at hn; simp at hn
  | some t₁ =>
      cases h₂ : lookupVals v₂ n with
      | none => rw [h₁, h₂] at hn; simp at hn
      | some t₂ =>
          rw [h₁, h₂] at hn
          simp at hn
          refine Or.inr ⟨t₁, t₂, rfl, rfl, ?_⟩
          cases t₁ with
          | nil =>
              cases t₂ with
              | nil => exact Or.inl ⟨rfl, rfl⟩
              | cons y ys => simp at hn
          | cons x xs =>
              cases t₂ with
              | nil => simp at hn
              | cons y ys =>
                  simp at hn
                  exact Or.inr ⟨x, xs, ys, rfl, by rw [hn]⟩

theorem absorbField_ext (v₁ v₂ : UrlValues) (h : sameFirst v₁ v₂) (c : Bool) (s : String)
    (f : Field) : absorbField v₁ c s f = absorbField v₂ c s f := by
  obtain ⟨nm, tg, ue, an, v, dv⟩ := f
  cases ue
  case true => simp [absorbField]
  case false =>
  by_cases ht : tg = "-"
  · simp [absorbField, ht]
  by_cases hemb : (parseTag tg).1 = "" ∧ an = true ∧ v.isStructKind = true
  · simp [absorbField, ht, hemb]
  by_cases hseen : "seen" ∈ (parseTag tg).2
  · rcases lookupRel v₁ v₂ h (if (parseTag tg).1 = "" then nm else (parseTag tg).1) with
      ⟨h₁, h₂⟩ | ⟨t₁, t₂, h₁, h₂, hc⟩ <;>
      simp [absorbField, ht, hemb, hseen, h₁, h₂]
  · rcases lookupRel v₁ v₂ h
        (if s ≠ "" then s ++ "[" ++ (if (parseTag tg).1 = "" then nm else (parseTag tg).1) ++ "]"
         else if (parseTag tg).1 = "" then nm else (parseTag tg).1) with
      ⟨h₁, h₂⟩ | ⟨t₁, t₂, h₁, h₂, hc⟩
    · simp only [ne_eq, ite_not] at h₁ h₂
      cases dv <;> simp [absorbField, ht, hemb, hseen, h₁, h₂]
    · simp only [ne_eq, ite_not] at h₁ h₂
      rcases hc with ⟨rfl, rfl⟩ | ⟨x, r₁, r₂, rfl, rfl⟩ <;> cases dv <;>
        simp [absorbField, ht, hemb, hseen, h₁, h₂]

theorem absorbFields_ext (v₁ v₂ : UrlValues) (h : sameFirst v₁ v₂) (c : Bool) (s : String) :
    ∀ fs, absorbFields v₁ c s fs = absorbFields v₂ c s fs := by
  intro fs
  induction fs with
  | nil => rfl
  | cons f rest ih => rw [absorbFields, absorbFields, absorbField_ext v₁ v₂ h c s f, ih]

theorem decodeVal_ext (v₁ v₂ : UrlValues) (h : sameFirst v₁ v₂) (a : Bool) (t : Target) :
    decodeVal v₁ a t = decodeVal v₂ a t := by
  induction t generalizing a with
  | tptrNil => rfl
  | tptrTo t ih => rw [decodeVal, decodeVal, ih true]
  | tstruct fs => rw [decodeVal, decodeVal, absorbFields_ext v₁ v₂ h a "" fs]
  | tother k => rfl

/-- C9: only the first value of a key's sequence is ever consulted.  Two input
mappings that agree on key presence and on the first element of every present
key's sequence (`sameFirst`) produce identical results — the same error, the
same field mutations, and even the same divergence behavior — on every target. -/
theorem c9_onlyFirstValueConsulted (v₁ v₂ : UrlValues) (h : sameFirst v₁ v₂) :
    ∀ t, decode v₁ t = decode v₂ t := by
  intro t
  cases t with
  | none => rfl
  | some t => rw [decode, decode, decodeVal_ext v₁ v₂ h false t]

/-- Witness for C9: two mappings differing only in the second value of key
`A` decode identically. -/
theorem c9_onlyFirstValueConsulted_witness :
    decode [("A", ["x", "y"])]
      (some (.tptrTo (.tstruct [⟨"A", "", false, false, .vstring "", none⟩]))) =
    decode [("A", ["x", "z"])]
      (some (.tptrTo (.tstruct [⟨"A", "", false, false, .vstring "", none⟩]))) :=
  c9_onlyFirstValueConsulted [("A", ["x", "y"])] [("A", ["x", "z"])]
    (fun k => by by_cases hk : ("A" : String) = k <;> simp [lookupVals, hk])
    (some (.tptrTo (.tstruct [⟨"A", "", false, false, .vstring "", none⟩])))

/-- C10 counterexample: the claim says a struct passed by value always yields
a nil error.  Conversion is indeed a silent no-op for non-settable slots, but
the nil-pointer check of `convertString` (decode.go:208-213) fires BEFORE the
`CanSet` check (decode.go:215-217): a by-value struct with a nil pointer field
and a matching key returns the nil-pointer error. -/
theorem c10_counterexample :
    decode [("P", ["1"])] (some (.tstruct [⟨"P", "", false, false, .vptr none, none⟩])) =
      some (some (.tstruct [⟨"P", "", false, false, .vptr none, none⟩]), some .nilTarget) ∧
    some DecodeError.nilTarget ≠ (none : Option DecodeError) := ⟨rfl, by simp⟩

theorem absorbField_byValue (tv : UrlValues) (s : String) (f : Field)
    (hp : ∀ p, f.value ≠ .vptr p) (hd : f.decodeValues = none) :
    absorbField tv false s f = some (f, none) := by
  obtain ⟨nm, tg, ue, an, v, dv⟩ := f
  simp only at hp hd
  subst hd
  cases ue
  case true => simp [absorbField]
  case false =>
  by_cases ht : tg = "-"
  · simp [absorbField, ht]
  by_cases hemb : (parseTag tg).1 = "" ∧ an = true ∧ v.isStructKind = true
  · simp [absorbField, ht, hemb]
  cases v
  case neg.vptr elem => exact absurd rfl (hp elem)
  all_goals
    by_cases hseen : "seen" ∈ (parseTag tg).2
  all_goals
    simp [absorbField, ht, hemb, hseen, ptrSkipLoop, convertString]
  all_goals
    try (split <;> simp [ptrSkipLoop, convertString])

theorem absorbFields_byValue (tv : UrlValues) (s : String) (fs : List Field)
    (h : ∀ f ∈ fs, (∀ p, f.value ≠ .vptr p) ∧ f.decodeValues = none) :
    absorbFields tv false s fs = some (fs, none) := by
  induction fs with
  | nil => rfl
  | cons f rest ih =>
      rw [absorbFields, absorbField_byValue tv s f (h f (by simp)).1 (h f (by simp)).2,
        ih fun g hg => h g (by simp [hg])]

/-- C10 amended: a struct passed by value (no pointer indirection, hence no
settable field) whose fields are neither pointer-typed nor `Decoder`
implementations decodes as a silent no-op: nil error and no field changed,
for EVERY input mapping — including inputs that would produce overflow,
unsupported-kind, or parse errors against a pointer target. -/
theorem c10_byValueNoOp (toxicValues : UrlValues) (fields : List Field)
    (h : ∀ f ∈ fields, (∀ p, f.value ≠ .vptr p) ∧ f.decodeValues = none) :
    decode toxicValues (some (.tstruct fields)) = some (some (.tstruct fields), none) := by
  rw [decode, decodeVal, absorbFields_byValue toxicValues "" fields h]

/-- Witness for the C10 amended theorem: an unparseable value for an `int`
field — an input that errors against a pointer target — is silently ignored
when the struct is passed by value. -/
theorem c10_byValueNoOp_witness :
    decode [("B", ["abc"])] (some (.tstruct [⟨"B", "", false, false, .vint .i 0, none⟩])) =
      some (some (.tstruct [⟨"B", "", false, false, .vint .i 0, none⟩]), none) :=
  c10_byValueNoOp [("B", ["abc"])] [⟨"B", "", false, false, .vint .i 0, none⟩]
    (fun f hf => by
      rcases List.mem_singleton.mp hf with rfl
      exact ⟨fun p hpv => Value.noConfusion hpv, rfl⟩)

end GoQuery
